import Mathlib

/-!
# Verification of the impcool immutable thread pool

Shallow embedding of the worker-unit / thread-pool code of the
`calebtt/impcool_sol` repository (headers under `immutable_thread_pool/`),
together with theorems settling the specification claims.

Modelling conventions:
* A `BoolCvPack` is observed through its boolean flag and the stop source it
  shares with the owning unit; the condition variable and mutex are
  synchronization devices with no further observable state, so a blocking
  `wait` is modelled by its exit predicate (the lambda passed to `cv.wait`).
* A worker unit's state is a record of its members; the `std::jthread` member
  is an `Option Nat` holding a creation-generation id, and the number of
  `join` operations performed is counted in `joins`.
* Tasks are opaque markers of a type `α` (a job is a zero-argument closure;
  only identity and order are observable to the operations modelled here).
-/

namespace Impcool

/-- Embeds `imp::BoolCvPack` (BoolCvPack.h): the shared flag
`is_condition_true` plus the view of the `stop_source` member used by the
wait predicates (`stop_possible()` and `stop_requested()`). -/
structure BoolCvPack where
  is_condition_true : Bool
  stopPossible : Bool
  stopRequested : Bool
deriving Repr, DecidableEq

/-- The exit predicate of `BoolCvPack::WaitForFalse` (BoolCvPack.h lines
83-91): `!is_condition_true || (stop_possible && stop_requested)`.
The wait returns exactly when this predicate holds. -/
def BoolCvPack.WaitForFalsePred (p : BoolCvPack) : Bool :=
  !p.is_condition_true || (p.stopPossible && p.stopRequested)

/-- The exit predicate of `BoolCvPack::WaitForTrue` (BoolCvPack.h lines
96-104): `is_condition_true || (stop_possible && stop_requested)`. -/
def BoolCvPack.WaitForTruePred (p : BoolCvPack) : Bool :=
  p.is_condition_true || (p.stopPossible && p.stopRequested)

/-- Embeds `imp::ThreadConditionals` (ThreadConditionals.h, and the
identical nested structs in ThreadUnitPlusPlus.h / ThreadUnitFP.h /
ThreadUnitPlus.h): the observable values of the three pause flags. -/
structure ThreadConditionals where
  OrderedPausePack : Bool
  UnorderedPausePack : Bool
  PauseCompletedPack : Bool
deriving Repr, DecidableEq

/-- Embeds `imp::DoOrderedPause` (ThreadConditionals.h lines 41-47). -/
def DoOrderedPause (c : ThreadConditionals) : ThreadConditionals :=
  { c with OrderedPausePack := true, UnorderedPausePack := false }

/-- Embeds `imp::DoUnorderedPause` (ThreadConditionals.h lines 48-54). -/
def DoUnorderedPause (c : ThreadConditionals) : ThreadConditionals :=
  { c with UnorderedPausePack := true, OrderedPausePack := false }

/-- Embeds `imp::DoUnpause` (ThreadConditionals.h lines 55-62). -/
def DoUnpause (_c : ThreadConditionals) : ThreadConditionals :=
  { OrderedPausePack := false, UnorderedPausePack := false
    PauseCompletedPack := false }

/-- Embeds `imp::IsPausing` (ThreadConditionals.h lines 63-67). -/
def IsPausing (c : ThreadConditionals) : Bool :=
  c.OrderedPausePack || c.UnorderedPausePack

/-- Embeds `imp::IsPauseCompleted` (ThreadConditionals.h lines 68-72). -/
def IsPauseCompleted (c : ThreadConditionals) : Bool :=
  c.PauseCompletedPack

/-- The two pause-setting policy calls of ThreadConditionals.h. -/
inductive PauseSetter
  | ordered
  | unordered
deriving Repr, DecidableEq

/-- Applies one policy call. -/
def applySetter (c : ThreadConditionals) : PauseSetter → ThreadConditionals
  | .ordered => DoOrderedPause c
  | .unordered => DoUnorderedPause c

/-- Runs a finite sequence of `DoOrderedPause` / `DoUnorderedPause` calls. -/
def runSetters (c : ThreadConditionals) (calls : List PauseSetter) :
    ThreadConditionals :=
  calls.foldl applySetter c

/-- At most one of the two pause-requested flags is set. -/
def atMostOnePause (c : ThreadConditionals) : Bool :=
  !(c.OrderedPausePack && c.UnorderedPausePack)

/-- Embeds the `TestAndWaitForPauseEither` lambda of `threadPoolFunc`
(ThreadUnitPlusPlus.h lines 234-246, identical in ThreadUnitFP.h and
ThreadUnitPlus.h).  The blocking `WaitForBothPauseRequestsFalse` is modelled
by the state transformation `unblock` that the controlling thread performs
to release it (its result must have both request flags false for the wait
to exit). -/
def TestAndWaitForPauseEither (c : ThreadConditionals)
    (unblock : ThreadConditionals → ThreadConditionals) : ThreadConditionals :=
  if c.OrderedPausePack || c.UnorderedPausePack then
    -- Set pause completion event, which sends the notify
    let c1 := { c with PauseCompletedPack := true }
    -- Wait until the pause state is toggled back to false (both)
    let c2 := unblock c1
    -- Reset the pause completed state and continue
    { c2 with PauseCompletedPack := false }
  else c

/-- Embeds the `TestAndWaitForPauseUnordered` lambda of `threadPoolFunc`
(ThreadUnitPlusPlus.h lines 247-259, identical in ThreadUnitFP.h lines
287-299 and ThreadUnitPlus.h lines 288-300).  After the wait the source
executes `pauseObj.UnorderedPausePack.UpdateState(false)` under the comment
"Reset the pause completed state and continue". -/
def TestAndWaitForPauseUnordered (c : ThreadConditionals)
    (unblock : ThreadConditionals → ThreadConditionals) : ThreadConditionals :=
  if c.UnorderedPausePack then
    -- Set pause completion event, which sends the notify
    let c1 := { c with PauseCompletedPack := true }
    -- Wait until the pause state is toggled back to false (both)
    let c2 := unblock c1
    -- (source resets UnorderedPausePack here, not PauseCompletedPack)
    { c2 with UnorderedPausePack := false }
  else c

/-! ## Worker unit state (`imp::ThreadUnitPlusPlus`, ThreadUnitPlusPlus.h)

The member logic of `imp::ThreadUnitFP` (ThreadUnitFP.h) is textually
identical for every operation modelled below (`SetTaskSource`,
`CreateThread`, `StartDestruction`, `WaitForDestruction`, `DestroyThread`,
`IsRunning`, `WaitForPauseCompleted`, the pause setters), so this one state
machine serves both classes. -/

/-- The members of `imp::ThreadUnitPlusPlus`.  `thread` models
`m_workThreadObj` (`some id` when a thread object exists, identified by a
creation generation drawn from `nextThreadId`); `joins` counts the
`join()` calls performed by `WaitForDestruction`; `stopRequested` /
`stopPossible` are the observable states of the shared `std::stop_source`
(`m_stopSource`, distributed to the three packs by `SetStopSource`);
`taskList` models `m_taskList.TaskList`; `snapshot` is the task-list copy
the running worker thread iterates (the lambda argument of
`threadPoolFunc`). -/
structure UnitState (α : Type) where
  thread : Option Nat
  nextThreadId : Nat
  joins : Nat
  stopRequested : Bool
  stopPossible : Bool
  taskList : List α
  snapshot : List α
  conds : ThreadConditionals
deriving Repr, DecidableEq

namespace ThreadUnitPlusPlus

variable {α : Type}

/-- Embeds `ThreadUnitPlusPlus::SetPauseValueOrdered` (lines 106-109):
`m_conditionalsPack.OrderedPausePack.UpdateState(enablePause)` — it touches
only the ordered flag. -/
def SetPauseValueOrdered (s : UnitState α) (enablePause : Bool) : UnitState α :=
  { s with conds := { s.conds with OrderedPausePack := enablePause } }

/-- Embeds `ThreadUnitPlusPlus::SetPauseValueUnordered` (lines 117-120). -/
def SetPauseValueUnordered (s : UnitState α) (enablePause : Bool) : UnitState α :=
  { s with conds := { s.conds with UnorderedPausePack := enablePause } }

/-- Embeds `ThreadUnitPlusPlus::IsRunning` (lines 122-125):
`m_workThreadObj != nullptr && !m_stopSource.stop_requested()`. -/
def IsRunning (s : UnitState α) : Bool :=
  s.thread.isSome && !s.stopRequested

/-- Embeds `ThreadUnitPlusPlus::GetPauseCompletionStatus` (lines 134-138). -/
def GetPauseCompletionStatus (s : UnitState α) : Bool :=
  s.conds.PauseCompletedPack

/-- Embeds `ThreadUnitPlusPlus::GetNumberOfTasks` (lines 155-158). -/
def GetNumberOfTasks (s : UnitState α) : Nat :=
  s.taskList.length

/-- Outcome of a call to `WaitForPauseCompleted`: either it returns without
waiting, or it blocks in `PauseCompletedPack.WaitForTrue()`. -/
inductive WaitOutcome
  | immediate
  | blockUntilCompletedTrue
deriving Repr, DecidableEq

/-- Embeds `ThreadUnitPlusPlus::WaitForPauseCompleted` (lines 142-152,
identical in ThreadUnitFP.h lines 179-189): computes `pauseReq` and
`needsToWait` from the flags and blocks only when both hold. -/
def WaitForPauseCompleted (s : UnitState α) : WaitOutcome :=
  let pauseReq := s.conds.OrderedPausePack || s.conds.UnorderedPausePack
  let needsToWait := !s.conds.PauseCompletedPack
  -- If pause not yet completed, AND pause is actually requested...
  if needsToWait && pauseReq then .blockUntilCompletedTrue else .immediate

/-- Embeds `ThreadUnitPlusPlus::CreateThread` (lines 188-205): when no
thread object exists, resets the three flags, constructs the thread (whose
worker iterates a copy of `tasks`), and installs the new thread's stop
source into the packs; otherwise returns `false` leaving the state
unchanged. -/
def CreateThread (s : UnitState α) (tasks : List α) (isPausedOnStart : Bool) :
    Bool × UnitState α :=
  match s.thread with
  | some _ => (false, s)
  | none =>
    (true,
      { s with
        conds :=
          { PauseCompletedPack := false
            OrderedPausePack := isPausedOnStart
            UnorderedPausePack := false }
        thread := some s.nextThreadId
        nextThreadId := s.nextThreadId + 1
        snapshot := tasks
        stopRequested := false
        stopPossible := true })

/-- Embeds `ThreadUnitPlusPlus::StartDestruction` (lines 210-214):
`m_stopSource.request_stop()` followed by notifying all three condition
variables (the notify wakes waiters; it changes no flag). -/
def StartDestruction (s : UnitState α) : UnitState α :=
  { s with stopRequested := true }

/-- Embeds `ThreadUnitPlusPlus::WaitForDestruction` (lines 217-227): joins
and resets the thread object when one exists, otherwise does nothing. -/
def WaitForDestruction (s : UnitState α) : UnitState α :=
  match s.thread with
  | some _ => { s with thread := none, joins := s.joins + 1 }
  | none => s

/-- Embeds `ThreadUnitPlusPlus::SetTaskSource` (lines 168-174, identical in
ThreadUnitFP.h lines 207-213): "Stops the thread, replaces the task list,
creates the thread again." -/
def SetTaskSource (s : UnitState α) (newTaskList : List α) : UnitState α :=
  let s1 := StartDestruction s
  let s2 := WaitForDestruction s1
  let s3 := { s2 with taskList := newTaskList }
  (CreateThread s3 newTaskList false).2

/-- Embeds `ThreadUnitPlusPlus::DestroyThread` (lines 179-184). -/
def DestroyThread (s : UnitState α) : UnitState α :=
  let s1 := StartDestruction s
  let s2 := WaitForDestruction s1
  { s2 with taskList := [] }

/-- State before the constructor body runs: no thread, no joins yet, packs
default-constructed (`BoolCvPack` starts with `is_condition_true = false`
and a `std::nostopstate` stop source, hence `stopPossible = false`). -/
def emptyState : UnitState α :=
  { thread := none
    nextThreadId := 0
    joins := 0
    stopRequested := false
    stopPossible := false
    taskList := []
    snapshot := []
    conds :=
      { OrderedPausePack := false
        UnorderedPausePack := false
        PauseCompletedPack := false } }

/-- Embeds the constructor `ThreadUnitPlusPlus(tasks)` (lines 89-93):
`m_taskList = tasks; CreateThread(m_taskList, false)`. -/
def mkUnit (tasks : List α) : UnitState α :=
  (CreateThread { emptyState with taskList := tasks } tasks false).2

/-- View of `m_conditionalsPack.OrderedPausePack` as a `BoolCvPack` (the
packs share the unit's stop source after `SetStopSource`). -/
def OrderedPausePackOf (s : UnitState α) : BoolCvPack :=
  { is_condition_true := s.conds.OrderedPausePack
    stopPossible := s.stopPossible
    stopRequested := s.stopRequested }

/-- View of `m_conditionalsPack.UnorderedPausePack` as a `BoolCvPack`. -/
def UnorderedPausePackOf (s : UnitState α) : BoolCvPack :=
  { is_condition_true := s.conds.UnorderedPausePack
    stopPossible := s.stopPossible
    stopRequested := s.stopRequested }

/-- View of `m_conditionalsPack.PauseCompletedPack` as a `BoolCvPack`. -/
def PauseCompletedPackOf (s : UnitState α) : BoolCvPack :=
  { is_condition_true := s.conds.PauseCompletedPack
    stopPossible := s.stopPossible
    stopRequested := s.stopRequested }

end ThreadUnitPlusPlus

namespace ThreadUnitPlus

variable {α : Type}

/-- Embeds `impcool::ThreadUnitPlus::CreateThread` (ThreadUnitPlus.h lines
98-117).  It differs from `ThreadUnitPlusPlus::CreateThread` only in taking
no task argument: the worker lambda reads `m_taskListPtr->TaskList` at
thread start, so the snapshot is the unit's current task list. -/
def CreateThread (s : UnitState α) (isPausedOnStart : Bool) :
    Bool × UnitState α :=
  match s.thread with
  | some _ => (false, s)
  | none =>
    (true,
      { s with
        conds :=
          { PauseCompletedPack := false
            OrderedPausePack := isPausedOnStart
            UnorderedPausePack := false }
        thread := some s.nextThreadId
        nextThreadId := s.nextThreadId + 1
        snapshot := s.taskList
        stopRequested := false
        stopPossible := true })

/-- Embeds `impcool::ThreadUnitPlus::PushInfiniteTaskBack` (ThreadUnitPlus.h
lines 184-204).  `StartDestruction`, `WaitForDestruction`,
`GetPauseCompletionStatus` and the two pause setters of `ThreadUnitPlus`
are textually identical to the `ThreadUnitPlusPlus` members embedded above,
so those embeddings are reused. -/
def PushInfiniteTaskBack (s : UnitState α) (taskFn : α) : UnitState α :=
  -- Start by requesting destruction.
  let s1 := ThreadUnitPlusPlus.StartDestruction s
  -- Store pause state, and unpause if necessary.
  let isEitherPaused := ThreadUnitPlusPlus.GetPauseCompletionStatus s1
  let s2 := ThreadUnitPlusPlus.SetPauseValueUnordered s1 false
  let s3 := ThreadUnitPlusPlus.SetPauseValueOrdered s2 false
  -- Update local copy of the task list.
  let s4 := { s3 with taskList := s3.taskList ++ [taskFn] }
  -- Wait for destruction to complete...
  let s5 := ThreadUnitPlusPlus.WaitForDestruction s4
  -- Re-create thread function for the pool of tasks.
  (CreateThread s5 isEitherPaused).2

end ThreadUnitPlus

/-! ## Pool-level operations (`impcool::ThreadPooler`, ThreadPooler.h, and
`impcool::ThreadPool`, ThreadPool.h)

A pool is the ordered list of its units' task lists (`GetNumberOfTasks` of
a unit is the length of its list). -/

namespace ThreadPooler

variable {α : Type}

/-- The per-thread chunk size computed by `ResetInfiniteTaskArray`
(ThreadPooler.h lines 86-89): `tempCount = taskCount / NumThreads;
tasksPer = tempCount > 0 ? tempCount : 1`. -/
def tasksPer (taskCount NumThreads : Nat) : Nat :=
  let tempCount := taskCount / NumThreads
  if tempCount > 0 then tempCount else 1

/-- Structural-recursion engine for `chunkList` below.  The first argument
is fuel; each step consumes at least one list element (the chunk size is
positive), so fuel `xs.length` is always sufficient.  A zero chunk size
never occurs in the source (`tasksPer ≥ 1`) and yields `[]`. -/
def chunkListFuel : Nat → List α → Nat → List (List α)
  | 0, _, _ => []
  | _ + 1, _, 0 => []
  | fuel + 1, xs, n + 1 =>
    if xs.isEmpty then []
    else xs.take (n + 1) :: chunkListFuel fuel (xs.drop (n + 1)) (n + 1)

/-- Embeds `std::ranges::views::chunk(n)` (ThreadPooler.h line 90):
contiguous chunks of `n` elements in original order, the last chunk
possibly shorter. -/
def chunkList (xs : List α) (n : Nat) : List (List α) :=
  chunkListFuel xs.length xs n

/-- Embeds `ThreadPooler::ResetInfiniteTaskArray` (ThreadPooler.h lines
83-102): chunks the bulk task list by `tasksPer` and sets chunk `i` as unit
`i`'s task source.  `assert(chunkedTasks.size() <= NumThreads)` guards the
loop: when it fails the units are not validly assigned (debug builds abort,
release builds index `ThreadList` out of bounds), modelled as `none`.
Units beyond the chunk count are not written (they keep their
default-empty task lists on a fresh pool). -/
def ResetInfiniteTaskArray (taskFnList : List α) (NumThreads : Nat) :
    Option (List (List α)) :=
  let taskCount := taskFnList.length
  let chunkedTasks := chunkList taskFnList (tasksPer taskCount NumThreads)
  if chunkedTasks.length ≤ NumThreads then
    some (chunkedTasks ++ List.replicate (NumThreads - chunkedTasks.length) [])
  else none

end ThreadPooler

namespace ThreadPool

variable {α : Type}

/-- The index selected by `std::min_element` over the units' task counts
(ThreadPool.h lines 107-110, ThreadPooler.h lines 70-73): the first index
attaining the minimal `GetNumberOfTasks()` (`min_element` moves its
candidate only on a strictly smaller element, so ties resolve to the
lowest index). -/
def minTaskIdx : List (List α) → Nat
  | [] => 0
  | [_] => 0
  | u :: v :: rest =>
    let m := minTaskIdx (v :: rest)
    if u.length ≤ ((v :: rest).getD m []).length then 0 else m + 1

/-- Embeds `ThreadPool::PushInfiniteTaskBack` (ThreadPool.h lines 103-113,
same selection logic as `ThreadPooler::PushApportionedTask`, ThreadPooler.h
lines 66-78): pushes the job onto the unit with the fewest tasks. -/
def PushInfiniteTaskBack (pool : List (List α)) (taskFn : α) :
    List (List α) :=
  let minIt := minTaskIdx pool
  pool.set minIt (pool.getD minIt [] ++ [taskFn])

/-- Pushing `k` jobs one at a time into a freshly created `N`-unit pool
(`ThreadPool` default-constructs its `std::array` of units, each with an
empty task list). -/
def pushJobs (NumThreads : Nat) (jobs : List α) : List (List α) :=
  jobs.foldl PushInfiniteTaskBack (List.replicate NumThreads [])

end ThreadPool

/-- The spec's formula for the unit-level working query, stated for
comparison with the source's `IsRunning` (spec section 4.2: "isWorking()
(WorkerUnit-level) = hasTasks AND NOT isPausing() AND NOT
isPauseCompleted()"). -/
def specIsWorking {α : Type} (s : UnitState α) : Bool :=
  (!s.taskList.isEmpty) && !(IsPausing s.conds) && !(IsPauseCompleted s.conds)

/-- A concrete unit in completed ordered pause: a worker thread exists
(generation 0), stop not requested, task list `[1, 2, 3]` running, ordered
pause requested and completed (the worker is blocked in its pause wait). -/
def pausedUnit : UnitState Nat :=
  { thread := some 0
    nextThreadId := 1
    joins := 0
    stopRequested := false
    stopPossible := true
    taskList := [1, 2, 3]
    snapshot := [1, 2, 3]
    conds :=
      { OrderedPausePack := true
        UnorderedPausePack := false
        PauseCompletedPack := true } }

/-- A concrete unit with an ordered pause requested but not yet completed
(the worker has not reached its pause checkpoint). -/
def pauseRequestedUnit : UnitState Nat :=
  { thread := some 0
    nextThreadId := 1
    joins := 0
    stopRequested := false
    stopPossible := true
    taskList := [9]
    snapshot := [9]
    conds :=
      { OrderedPausePack := true
        UnorderedPausePack := false
        PauseCompletedPack := false } }

end Impcool

namespace Impcool

/-! ## Theorems settling the claims -/

/-- C2 (counterexample): `ThreadUnitPlusPlus::SetPauseValueUnordered(true)`
followed by `SetPauseValueOrdered(true)` leaves BOTH pause-requested flags
true — setting the ordered pause does not clear the unordered-requested
flag, so mutual exclusion fails for these cited setters. -/
theorem setPauseValue_both_true_counterexample :
    (ThreadUnitPlusPlus.SetPauseValueOrdered
        (ThreadUnitPlusPlus.SetPauseValueUnordered
          (ThreadUnitPlusPlus.mkUnit ([] : List Nat)) true)
        true).conds.OrderedPausePack = true ∧
    (ThreadUnitPlusPlus.SetPauseValueOrdered
        (ThreadUnitPlusPlus.SetPauseValueUnordered
          (ThreadUnitPlusPlus.mkUnit ([] : List Nat)) true)
        true).conds.UnorderedPausePack = true :=
  ⟨rfl, rfl⟩

/-- C2 (amended): for every finite sequence of calls to the
`DoOrderedPause` / `DoUnorderedPause` policy functions of
ThreadConditionals.h (the mutators that implement spec section 4.2; the
`pause::OrderedPause_t` / `pause::UnorderedPause_t` visitors of
ThreadUnitFP.h are identical), immediately after any call at most one of
the two pause-requested flags is true, from any starting state: each call
sets its own flag and clears the other. -/
theorem doPause_mutual_exclusion (c0 : ThreadConditionals)
    (calls : List PauseSetter) (k : Nat) (hk : k < calls.length) :
    atMostOnePause (runSetters c0 (calls.take (k + 1))) = true := by
  have h1 : calls.take (k + 1) = calls.take k ++ [calls[k]] := by
    rw [List.take_succ]
    simp [List.getElem?_eq_getElem hk]
  rw [h1]
  unfold runSetters
  rw [List.foldl_append]
  cases calls[k] <;>
    simp [applySetter, DoOrderedPause, DoUnorderedPause, atMostOnePause]

/-- Witness for C2's amended theorem at the sequence
`[unordered, ordered]`, after its second call. -/
theorem doPause_mutual_exclusion_witness :
    (1 : Nat) < ([PauseSetter.unordered, PauseSetter.ordered]).length ∧
    atMostOnePause
      (runSetters
        { OrderedPausePack := false, UnorderedPausePack := false
          PauseCompletedPack := false }
        (([PauseSetter.unordered, PauseSetter.ordered]).take (1 + 1))) = true :=
  ⟨by decide,
    doPause_mutual_exclusion
      { OrderedPausePack := false, UnorderedPausePack := false
        PauseCompletedPack := false }
      [PauseSetter.unordered, PauseSetter.ordered] 1 (by decide)⟩

/-- C3 (code-bug evaluation): with an unordered pause requested and then
released (both request flags set false, as the setters do), the worker's
`TestAndWaitForPauseUnordered` checkpoint resumes with
`PauseCompletedPack` still true — the source resets `UnorderedPausePack`
instead of `PauseCompletedPack` under the comment "Reset the pause
completed state and continue".  The ordered checkpoint
`TestAndWaitForPauseEither`, by contrast, does clear it. -/
theorem unorderedCheckpoint_leaves_completed_true :
    (TestAndWaitForPauseUnordered
        { OrderedPausePack := false, UnorderedPausePack := true
          PauseCompletedPack := false }
        (fun c =>
          { c with OrderedPausePack := false
                   UnorderedPausePack := false })).PauseCompletedPack = true ∧
    (TestAndWaitForPauseEither
        { OrderedPausePack := false, UnorderedPausePack := true
          PauseCompletedPack := false }
        (fun c =>
          { c with OrderedPausePack := false
                   UnorderedPausePack := false })).PauseCompletedPack = false :=
  ⟨rfl, rfl⟩

/-- C4: for a unit in any pause state whose packs hold a live stop source
(as after `CreateThread` installs the thread's stop source), once
`StartDestruction` requests cancellation, the exit predicates of every
blocked pause wait hold — the worker's `WaitForFalse` on both request
flags and an external caller's `WaitForTrue` on the completed flag —
while no flag value changes; destruction therefore cannot deadlock on a
pause wait. -/
theorem cancellation_unblocks_pause_waits {α : Type} (s : UnitState α)
    (hp : s.stopPossible = true) :
    ((ThreadUnitPlusPlus.OrderedPausePackOf
        (ThreadUnitPlusPlus.StartDestruction s)).WaitForFalsePred = true ∧
      (ThreadUnitPlusPlus.UnorderedPausePackOf
        (ThreadUnitPlusPlus.StartDestruction s)).WaitForFalsePred = true ∧
      (ThreadUnitPlusPlus.PauseCompletedPackOf
        (ThreadUnitPlusPlus.StartDestruction s)).WaitForTruePred = true) ∧
    (ThreadUnitPlusPlus.StartDestruction s).conds = s.conds := by
  refine ⟨⟨?_, ?_, ?_⟩, rfl⟩ <;>
    simp [ThreadUnitPlusPlus.StartDestruction,
      ThreadUnitPlusPlus.OrderedPausePackOf,
      ThreadUnitPlusPlus.UnorderedPausePackOf,
      ThreadUnitPlusPlus.PauseCompletedPackOf,
      BoolCvPack.WaitForFalsePred, BoolCvPack.WaitForTruePred, hp]

/-- Witness for C4 at a unit blocked in a completed ordered pause. -/
theorem cancellation_unblocks_pause_waits_witness :
    pausedUnit.stopPossible = true ∧
    (((ThreadUnitPlusPlus.OrderedPausePackOf
        (ThreadUnitPlusPlus.StartDestruction pausedUnit)).WaitForFalsePred = true ∧
      (ThreadUnitPlusPlus.UnorderedPausePackOf
        (ThreadUnitPlusPlus.StartDestruction pausedUnit)).WaitForFalsePred = true ∧
      (ThreadUnitPlusPlus.PauseCompletedPackOf
        (ThreadUnitPlusPlus.StartDestruction pausedUnit)).WaitForTruePred = true) ∧
    (ThreadUnitPlusPlus.StartDestruction pausedUnit).conds = pausedUnit.conds) :=
  ⟨rfl, cancellation_unblocks_pause_waits pausedUnit rfl⟩

/-- C1 (code-bug evaluation): `SetTaskSource` on a paused running unit
joins the existing worker thread (`joins` increments), constructs a new
thread object (a new generation id), resets the pause-completed flag to
false, and only then starts executing the new snapshot — the replacement
is stop/rejoin/recreate, not a live swap.  (The repository's own test,
ThreadUnitTests.h `TestStopPause`, asserts `GetPauseCompletionStatus()`
remains true across `SetTaskSource`, which this behaviour violates.) -/
theorem setTaskSource_destroys_and_recreates :
    (ThreadUnitPlusPlus.SetTaskSource pausedUnit [4, 5]).joins =
      pausedUnit.joins + 1 ∧
    (ThreadUnitPlusPlus.SetTaskSource pausedUnit [4, 5]).thread = some 1 ∧
    ThreadUnitPlusPlus.GetPauseCompletionStatus
      (ThreadUnitPlusPlus.SetTaskSource pausedUnit [4, 5]) = false ∧
    (ThreadUnitPlusPlus.SetTaskSource pausedUnit [4, 5]).snapshot = [4, 5] := by
  decide

/-- C7: destroying an already-destroyed unit is a safe no-op — a second
consecutive `DestroyThread` changes nothing and performs no join (so it
cannot block); `CreateThread` on a unit that already has a thread returns
`false` and leaves the state unchanged, and on a unit without a thread
returns `true`. -/
theorem destroy_idempotent_create_noop {α : Type} :
    (∀ s : UnitState α,
        ThreadUnitPlusPlus.DestroyThread (ThreadUnitPlusPlus.DestroyThread s) =
          ThreadUnitPlusPlus.DestroyThread s) ∧
    (∀ s : UnitState α, s.thread = none →
        (ThreadUnitPlusPlus.DestroyThread s).joins = s.joins) ∧
    (∀ (s : UnitState α) (tasks : List α) (p : Bool), s.thread.isSome = true →
        ThreadUnitPlusPlus.CreateThread s tasks p = (false, s)) ∧
    (∀ (s : UnitState α) (tasks : List α) (p : Bool), s.thread = none →
        (ThreadUnitPlusPlus.CreateThread s tasks p).1 = true) := by
  refine ⟨?_, ?_, ?_, ?_⟩
  · intro s
    cases h : s.thread <;>
      simp [ThreadUnitPlusPlus.DestroyThread,
        ThreadUnitPlusPlus.StartDestruction,
        ThreadUnitPlusPlus.WaitForDestruction, h]
  · intro s h
    simp [ThreadUnitPlusPlus.DestroyThread,
      ThreadUnitPlusPlus.StartDestruction,
      ThreadUnitPlusPlus.WaitForDestruction, h]
  · intro s tasks p h
    cases ht : s.thread with
    | none => rw [ht] at h; simp at h
    | some tid => simp [ThreadUnitPlusPlus.CreateThread, ht]
  · intro s tasks p h
    simp [ThreadUnitPlusPlus.CreateThread, h]

/-- Witness for C7: second destroy on a destroyed fresh unit joins
nothing; create on a unit with a live thread reports `false` unchanged;
create on an empty unit reports `true`. -/
theorem destroy_idempotent_create_noop_witness :
    ((ThreadUnitPlusPlus.emptyState : UnitState Nat).thread = none ∧
      (ThreadUnitPlusPlus.DestroyThread
        (ThreadUnitPlusPlus.emptyState : UnitState Nat)).joins =
        (ThreadUnitPlusPlus.emptyState : UnitState Nat).joins) ∧
    ((ThreadUnitPlusPlus.mkUnit [3]).thread.isSome = true ∧
      ThreadUnitPlusPlus.CreateThread (ThreadUnitPlusPlus.mkUnit [3]) [7] false =
        (false, ThreadUnitPlusPlus.mkUnit [3])) ∧
    (ThreadUnitPlusPlus.CreateThread
      (ThreadUnitPlusPlus.emptyState : UnitState Nat) [7] false).1 = true :=
  ⟨⟨rfl, destroy_idempotent_create_noop.2.1 _ rfl⟩,
    ⟨rfl, destroy_idempotent_create_noop.2.2.1 _ _ _ rfl⟩,
    destroy_idempotent_create_noop.2.2.2 _ _ _ rfl⟩

/-- C8 (counterexample): a freshly constructed `ThreadUnitPlusPlus` with no
tasks has `IsRunning() = true` (thread present, no stop requested) while
the spec's formula `hasTasks AND NOT isPausing AND NOT isPauseCompleted`
is false — the running query is not that formula. -/
theorem isRunning_ignores_tasks_counterexample :
    ThreadUnitPlusPlus.IsRunning (ThreadUnitPlusPlus.mkUnit ([] : List Nat)) =
      true ∧
    specIsWorking (ThreadUnitPlusPlus.mkUnit ([] : List Nat)) = false :=
  ⟨rfl, rfl⟩

/-- C8 (amended): `ThreadUnitPlusPlus::IsRunning` returns true exactly when
the thread object is present and stop has not been requested; it is
independent of the task list and of all three pause flags. -/
theorem isRunning_characterization {α : Type} (s : UnitState α) :
    (ThreadUnitPlusPlus.IsRunning s = true ↔
      s.thread.isSome = true ∧ s.stopRequested = false) ∧
    (∀ (ts : List α) (o u p : Bool),
      ThreadUnitPlusPlus.IsRunning
        { s with taskList := ts
                 conds :=
                  { OrderedPausePack := o, UnorderedPausePack := u
                    PauseCompletedPack := p } } =
        ThreadUnitPlusPlus.IsRunning s) := by
  constructor
  · simp [ThreadUnitPlusPlus.IsRunning]
  · intro ts o u p
    rfl

/-- C9: `WaitForPauseCompleted` returns immediately whenever neither pause
is requested (whatever the completed flag holds, in particular false), and
it blocks — waiting for the completed flag to become true — exactly when
some pause is requested and completion has not been signaled. -/
theorem waitForPauseCompleted_blocks_iff {α : Type} (s : UnitState α) :
    (s.conds.OrderedPausePack = false → s.conds.UnorderedPausePack = false →
      ThreadUnitPlusPlus.WaitForPauseCompleted s =
        ThreadUnitPlusPlus.WaitOutcome.immediate) ∧
    (ThreadUnitPlusPlus.WaitForPauseCompleted s =
        ThreadUnitPlusPlus.WaitOutcome.blockUntilCompletedTrue ↔
      (s.conds.OrderedPausePack || s.conds.UnorderedPausePack) = true ∧
        s.conds.PauseCompletedPack = false) := by
  cases ho : s.conds.OrderedPausePack <;>
    cases hu : s.conds.UnorderedPausePack <;>
      cases hp : s.conds.PauseCompletedPack <;>
        simp [ThreadUnitPlusPlus.WaitForPauseCompleted, ho, hu, hp]

/-- Witness for C9 at a fresh no-pause unit whose completed flag is false:
the call returns immediately. -/
theorem waitForPauseCompleted_blocks_iff_witness :
    ThreadUnitPlusPlus.WaitForPauseCompleted
        (ThreadUnitPlusPlus.mkUnit ([] : List Nat)) =
      ThreadUnitPlusPlus.WaitOutcome.immediate :=
  (waitForPauseCompleted_blocks_iff (ThreadUnitPlusPlus.mkUnit ([] : List Nat))).1
    rfl rfl

/-- C10: after `ThreadUnitPlus::PushInfiniteTaskBack` returns, the
unordered pause-requested flag is false, the ordered pause-requested flag
equals the pause-completed status sampled (via `GetPauseCompletionStatus`)
after `StartDestruction` but before the old thread was joined, and the
completed flag is false; hence a pause that was requested but not yet
completed at entry is discarded and the recreated thread starts unpaused.
The pushed task is appended to the task list. -/
theorem pushInfiniteTaskBack_discards_pending_pause {α : Type}
    (s : UnitState α) (t : α) :
    (ThreadUnitPlus.PushInfiniteTaskBack s t).conds.UnorderedPausePack =
      false ∧
    (ThreadUnitPlus.PushInfiniteTaskBack s t).conds.OrderedPausePack =
      ThreadUnitPlusPlus.GetPauseCompletionStatus s ∧
    (ThreadUnitPlus.PushInfiniteTaskBack s t).conds.PauseCompletedPack =
      false ∧
    (ThreadUnitPlus.PushInfiniteTaskBack s t).taskList = s.taskList ++ [t] ∧
    (s.conds.OrderedPausePack = true → s.conds.PauseCompletedPack = false →
      IsPausing (ThreadUnitPlus.PushInfiniteTaskBack s t).conds = false) := by
  refine ⟨?_, ?_, ?_, ?_, ?_⟩ <;>
    cases h : s.thread <;>
      simp [ThreadUnitPlus.PushInfiniteTaskBack, ThreadUnitPlus.CreateThread,
        ThreadUnitPlusPlus.StartDestruction,
        ThreadUnitPlusPlus.WaitForDestruction,
        ThreadUnitPlusPlus.SetPauseValueOrdered,
        ThreadUnitPlusPlus.SetPauseValueUnordered,
        ThreadUnitPlusPlus.GetPauseCompletionStatus, IsPausing, h]

/-- Witness for C10 at a unit with an ordered pause requested but not yet
completed: after the push, no pause is requested any more. -/
theorem pushInfiniteTaskBack_discards_pending_pause_witness :
    pauseRequestedUnit.conds.OrderedPausePack = true ∧
    pauseRequestedUnit.conds.PauseCompletedPack = false ∧
    IsPausing (ThreadUnitPlus.PushInfiniteTaskBack pauseRequestedUnit 7).conds =
      false :=
  ⟨rfl, rfl,
    (pushInfiniteTaskBack_discards_pending_pause pauseRequestedUnit 7).2.2.2.2
      rfl rfl⟩

/-! ### Apportionment lemmas (C5) -/

theorem tasksPer_pos (taskCount NumThreads : Nat) :
    0 < ThreadPooler.tasksPer taskCount NumThreads := by
  rw [show ThreadPooler.tasksPer taskCount NumThreads =
    if taskCount / NumThreads > 0 then taskCount / NumThreads else 1 from rfl]
  split <;> omega

theorem chunkListFuel_flatten {α : Type} (fuel : Nat) :
    ∀ (xs : List α) (n : Nat), xs.length ≤ fuel →
      (ThreadPooler.chunkListFuel fuel xs (n + 1)).flatten = xs := by
  induction fuel with
  | zero =>
    intro xs n h
    have hx : xs = [] := List.length_eq_zero.mp (Nat.le_zero.mp h)
    subst hx
    rfl
  | succ f ih =>
    intro xs n h
    cases xs with
    | nil => rfl
    | cons x t =>
      have hlen : ((x :: t).drop (n + 1)).length ≤ f := by
        simp only [List.length_drop, List.length_cons] at h ⊢
        omega
      show (ThreadPooler.chunkListFuel (f + 1) (x :: t) (n + 1)).flatten = x :: t
      simp only [ThreadPooler.chunkListFuel, List.isEmpty_cons, Bool.false_eq_true,
        if_false, List.flatten_cons]
      rw [ih _ n hlen, List.take_append_drop]

theorem chunkListFuel_length {α : Type} (fuel : Nat) :
    ∀ (xs : List α) (n : Nat), xs.length ≤ fuel →
      (ThreadPooler.chunkListFuel fuel xs (n + 1)).length =
        (xs.length + n) / (n + 1) := by
  induction fuel with
  | zero =>
    intro xs n h
    have hx : xs = [] := List.length_eq_zero.mp (Nat.le_zero.mp h)
    subst hx
    simp [ThreadPooler.chunkListFuel, Nat.div_eq_of_lt]
  | succ f ih =>
    intro xs n h
    cases xs with
    | nil => simp [ThreadPooler.chunkListFuel, Nat.div_eq_of_lt]
    | cons x t =>
      have hlen : ((x :: t).drop (n + 1)).length ≤ f := by
        simp only [List.length_drop, List.length_cons] at h ⊢
        omega
      show (ThreadPooler.chunkListFuel (f + 1) (x :: t) (n + 1)).length =
        ((x :: t).length + n) / (n + 1)
      simp only [ThreadPooler.chunkListFuel, List.isEmpty_cons, Bool.false_eq_true,
        if_false, List.length_cons]
      rw [ih _ n hlen]
      simp only [List.length_drop, List.length_cons]
      have key : (t.length + 1 - (n + 1) + n) / (n + 1) = t.length / (n + 1) := by
        rcases le_or_lt (n + 1) (t.length + 1) with hc | hc
        · congr 1
          omega
        · rw [Nat.div_eq_of_lt (by omega), Nat.div_eq_of_lt (by omega)]
      rw [key, show t.length + 1 + n = t.length + (n + 1) by omega,
        Nat.add_div_right _ (Nat.succ_pos n)]

theorem chunkList_flatten {α : Type} (xs : List α) (n : Nat) (hn : 0 < n) :
    (ThreadPooler.chunkList xs n).flatten = xs := by
  cases n with
  | zero => omega
  | succ m => exact chunkListFuel_flatten xs.length xs m (Nat.le_refl _)

theorem chunkList_length_eq {α : Type} (xs : List α) (n : Nat) (hn : 0 < n) :
    (ThreadPooler.chunkList xs n).length = (xs.length + n - 1) / n := by
  cases n with
  | zero => omega
  | succ m =>
    rw [show xs.length + (m + 1) - 1 = xs.length + m by omega]
    exact chunkListFuel_length xs.length xs m (Nat.le_refl _)

/-- C5 (counterexample): at the claim's own example `T = 23`, `N = 5` the
chunk size is 4 but the partition has `ceil(23/4) = 6` chunks, so the
code's own precondition `assert(chunkedTasks.size() <= NumThreads)` fails
(`ResetInfiniteTaskArray` evaluates to `none`): the 23 jobs are not
distributed over the 5 units, contradicting "the total number of jobs
assigned across all units equals T". -/
theorem apportion_23_over_5_counterexample :
    ThreadPooler.tasksPer 23 5 = 4 ∧
    (ThreadPooler.chunkList (List.range 23) 4).length = 6 ∧
    ¬(ThreadPooler.chunkList (List.range 23) 4).length ≤ 5 ∧
    ThreadPooler.ResetInfiniteTaskArray (List.range 23) 5 = none := by
  decide

/-- C5 (amended): `ResetInfiniteTaskArray` computes
`perUnit = max(1, floor(T / N))` and partitions the `T` jobs into
`ceil(T / perUnit)` contiguous chunks in original order; whenever the
chunk count is at most `N` (the code's asserted precondition — it fails
for `T = 23`, `N = 5`) the call succeeds, chunk `i` becomes unit `i`'s
task source with the remaining units empty, and the total number of jobs
across all units equals `T` (their concatenation is the original list). -/
theorem resetInfiniteTaskArray_distributes {α : Type} (xs : List α)
    (NumThreads : Nat) (units : List (List α))
    (h : ThreadPooler.ResetInfiniteTaskArray xs NumThreads = some units) :
    ThreadPooler.tasksPer xs.length NumThreads =
      max 1 (xs.length / NumThreads) ∧
    (ThreadPooler.chunkList xs
        (ThreadPooler.tasksPer xs.length NumThreads)).length =
      (xs.length + ThreadPooler.tasksPer xs.length NumThreads - 1) /
        ThreadPooler.tasksPer xs.length NumThreads ∧
    units.length = NumThreads ∧
    units.flatten = xs ∧
    (units.map List.length).sum = xs.length := by
  have hper : 0 < ThreadPooler.tasksPer xs.length NumThreads :=
    tasksPer_pos xs.length NumThreads
  have hmax : ThreadPooler.tasksPer xs.length NumThreads =
      max 1 (xs.length / NumThreads) := by
    rw [show ThreadPooler.tasksPer xs.length NumThreads =
      if xs.length / NumThreads > 0 then xs.length / NumThreads else 1 from rfl]
    split <;> omega
  simp only [ThreadPooler.ResetInfiniteTaskArray] at h
  by_cases hle :
      (ThreadPooler.chunkList xs
        (ThreadPooler.tasksPer xs.length NumThreads)).length ≤ NumThreads
  · rw [if_pos hle, Option.some_inj] at h
    subst h
    refine ⟨hmax, chunkList_length_eq xs _ hper, ?_, ?_, ?_⟩
    · simp only [List.length_append, List.length_replicate]
      omega
    · rw [List.flatten_append, chunkList_flatten xs _ hper]
      simp
    · rw [← List.length_flatten, List.flatten_append,
        chunkList_flatten xs _ hper]
      simp
  · rw [if_neg hle] at h
    exact absurd h (by simp)

/-- Witness for C5's amended theorem at `T = 20`, `N = 5`: the assertion
holds (5 chunks of 4), every unit gets its chunk, and all 20 jobs are
distributed. -/
theorem resetInfiniteTaskArray_distributes_witness :
    ThreadPooler.ResetInfiniteTaskArray (List.range 20) 5 =
      some [[0, 1, 2, 3], [4, 5, 6, 7], [8, 9, 10, 11], [12, 13, 14, 15],
        [16, 17, 18, 19]] ∧
    ([[0, 1, 2, 3], [4, 5, 6, 7], [8, 9, 10, 11], [12, 13, 14, 15],
        [16, 17, 18, 19]] : List (List Nat)).flatten = List.range 20 ∧
    (([[0, 1, 2, 3], [4, 5, 6, 7], [8, 9, 10, 11], [12, 13, 14, 15],
        [16, 17, 18, 19]] : List (List Nat)).map List.length).sum =
      (List.range 20).length :=
  ⟨by decide,
    (resetInfiniteTaskArray_distributes (List.range 20) 5 _
      (by decide)).2.2.2.1,
    (resetInfiniteTaskArray_distributes (List.range 20) 5 _
      (by decide)).2.2.2.2⟩

/-! ### Load-balancing lemmas (C6) -/

theorem getD_set_self {β : Type} :
    ∀ (l : List β) (i : Nat) (a d : β), i < l.length →
      (l.set i a).getD i d = a := by
  intro l
  induction l with
  | nil =>
    intro i a d h
    simp at h
  | cons x t ih =>
    intro i a d h
    cases i with
    | zero => rfl
    | succ n =>
      rw [List.set_cons_succ, List.getD_cons_succ]
      exact ih n a d (by simpa using h)

theorem getD_set_ne {β : Type} :
    ∀ (l : List β) (i j : Nat) (a d : β), i ≠ j →
      (l.set i a).getD j d = l.getD j d := by
  intro l
  induction l with
  | nil =>
    intro i j a d _
    rfl
  | cons x t ih =>
    intro i j a d hne
    cases i with
    | zero =>
      cases j with
      | zero => exact absurd rfl hne
      | succ m => rfl
    | succ n =>
      cases j with
      | zero => rfl
      | succ m =>
        rw [List.set_cons_succ, List.getD_cons_succ, List.getD_cons_succ]
        exact ih n m a d (fun hEq => hne (by rw [hEq]))

/-- The selection step of `std::min_element` unfolded one level. -/
theorem minTaskIdx_cons_cons {α : Type} (u v : List α) (rest : List (List α)) :
    ThreadPool.minTaskIdx (u :: v :: rest) =
      if u.length ≤
          ((v :: rest).getD (ThreadPool.minTaskIdx (v :: rest)) []).length
      then 0
      else ThreadPool.minTaskIdx (v :: rest) + 1 := rfl

theorem minTaskIdx_lt_length {α : Type} :
    ∀ (pool : List (List α)), pool ≠ [] →
      ThreadPool.minTaskIdx pool < pool.length := by
  intro pool
  induction pool with
  | nil => intro h; exact absurd rfl h
  | cons u rest ih =>
    intro _
    cases rest with
    | nil => simp [ThreadPool.minTaskIdx]
    | cons v rest2 =>
      rw [minTaskIdx_cons_cons]
      split
      · simp
      · have h2 := ih (by simp)
        simp only [List.length_cons] at h2 ⊢
        omega

theorem minTaskIdx_min {α : Type} :
    ∀ (pool : List (List α)) (j : Nat), j < pool.length →
      (pool.getD (ThreadPool.minTaskIdx pool) []).length ≤
        (pool.getD j []).length := by
  intro pool
  induction pool with
  | nil =>
    intro j hj
    simp at hj
  | cons u rest ih =>
    intro j hj
    cases rest with
    | nil =>
      have hj0 : j = 0 := by
        simp only [List.length_cons, List.length_nil] at hj
        omega
      subst hj0
      simp [ThreadPool.minTaskIdx]
    | cons v rest2 =>
      rw [minTaskIdx_cons_cons]
      by_cases hcmp : u.length ≤
          ((v :: rest2).getD (ThreadPool.minTaskIdx (v :: rest2)) []).length
      · rw [if_pos hcmp]
        cases j with
        | zero => simp
        | succ m =>
          rw [List.getD_cons_zero, List.getD_cons_succ]
          exact le_trans hcmp (ih m (by simpa using hj))
      · rw [if_neg hcmp]
        cases j with
        | zero =>
          rw [List.getD_cons_succ, List.getD_cons_zero]
          omega
        | succ m =>
          rw [List.getD_cons_succ, List.getD_cons_succ]
          exact ih m (by simpa using hj)

theorem minTaskIdx_first {α : Type} :
    ∀ (pool : List (List α)) (j : Nat), j < ThreadPool.minTaskIdx pool →
      (pool.getD (ThreadPool.minTaskIdx pool) []).length <
        (pool.getD j []).length := by
  intro pool
  induction pool with
  | nil =>
    intro j hj
    simp [ThreadPool.minTaskIdx] at hj
  | cons u rest ih =>
    intro j hj
    cases rest with
    | nil =>
      simp [ThreadPool.minTaskIdx] at hj
    | cons v rest2 =>
      rw [minTaskIdx_cons_cons] at hj ⊢
      by_cases hcmp : u.length ≤
          ((v :: rest2).getD (ThreadPool.minTaskIdx (v :: rest2)) []).length
      · rw [if_pos hcmp] at hj
        exact absurd hj (Nat.not_lt_zero j)
      · rw [if_neg hcmp] at hj ⊢
        cases j with
        | zero =>
          rw [List.getD_cons_succ, List.getD_cons_zero]
          omega
        | succ m =>
          rw [List.getD_cons_succ, List.getD_cons_succ]
          exact ih m (by omega)

theorem push_preserves_balance {α : Type} (pool : List (List α)) (t : α)
    (hbal : ∀ i j, i < pool.length → j < pool.length →
      (pool.getD i []).length ≤ (pool.getD j []).length + 1) :
    ∀ i j, i < pool.length → j < pool.length →
      ((ThreadPool.PushInfiniteTaskBack pool t).getD i []).length ≤
        ((ThreadPool.PushInfiniteTaskBack pool t).getD j []).length + 1 := by
  intro i j hi hj
  have hne : pool ≠ [] := by
    intro hE
    rw [hE] at hi
    simp at hi
  have hm := minTaskIdx_lt_length pool hne
  rw [show ThreadPool.PushInfiniteTaskBack pool t =
      pool.set (ThreadPool.minTaskIdx pool)
        (pool.getD (ThreadPool.minTaskIdx pool) [] ++ [t]) from rfl]
  by_cases hi_m : i = ThreadPool.minTaskIdx pool
  · by_cases hj_m : j = ThreadPool.minTaskIdx pool
    · rw [hi_m, hj_m, getD_set_self _ _ _ _ hm]
      omega
    · rw [hi_m, getD_set_self _ _ _ _ hm,
        getD_set_ne _ _ _ _ _ (fun hE => hj_m hE.symm)]
      have h1 := minTaskIdx_min pool j hj
      simp only [List.length_append, List.length_cons, List.length_nil]
      omega
  · by_cases hj_m : j = ThreadPool.minTaskIdx pool
    · rw [hj_m, getD_set_ne _ _ _ _ _ (fun hE => hi_m hE.symm),
        getD_set_self _ _ _ _ hm]
      have h1 := hbal i (ThreadPool.minTaskIdx pool) hi hm
      simp only [List.length_append, List.length_cons, List.length_nil]
      omega
    · rw [getD_set_ne _ _ _ _ _ (fun hE => hi_m hE.symm),
        getD_set_ne _ _ _ _ _ (fun hE => hj_m hE.symm)]
      exact hbal i j hi hj

theorem foldl_push_balanced {α : Type} (jobs : List α) :
    ∀ (start : List (List α)),
      (∀ i j, i < start.length → j < start.length →
        (start.getD i []).length ≤ (start.getD j []).length + 1) →
      ∀ i j, i < (jobs.foldl ThreadPool.PushInfiniteTaskBack start).length →
        j < (jobs.foldl ThreadPool.PushInfiniteTaskBack start).length →
        ((jobs.foldl ThreadPool.PushInfiniteTaskBack start).getD i []).length ≤
          ((jobs.foldl ThreadPool.PushInfiniteTaskBack start).getD j []).length
            + 1 := by
  induction jobs with
  | nil =>
    intro start hbal i j hi hj
    exact hbal i j hi hj
  | cons t rest ih =>
    intro start hbal i j hi hj
    rw [List.foldl_cons] at hi hj ⊢
    have hlen : (ThreadPool.PushInfiniteTaskBack start t).length =
        start.length := by
      rw [show ThreadPool.PushInfiniteTaskBack start t =
        start.set (ThreadPool.minTaskIdx start)
          (start.getD (ThreadPool.minTaskIdx start) [] ++ [t]) from rfl]
      exact List.length_set start _ _
    refine ih (ThreadPool.PushInfiniteTaskBack start t) ?_ i j hi hj
    intro i2 j2 hi2 hj2
    rw [hlen] at hi2 hj2
    exact push_preserves_balance start t hbal i2 j2 hi2 hj2

theorem pushJobs_length {α : Type} (N : Nat) (jobs : List α) :
    (ThreadPool.pushJobs N jobs).length = N := by
  have hfold : ∀ (js : List α) (start : List (List α)),
      (js.foldl ThreadPool.PushInfiniteTaskBack start).length = start.length := by
    intro js
    induction js with
    | nil => intro start; rfl
    | cons t rest ih =>
      intro start
      rw [List.foldl_cons, ih,
        show ThreadPool.PushInfiniteTaskBack start t =
          start.set (ThreadPool.minTaskIdx start)
            (start.getD (ThreadPool.minTaskIdx start) [] ++ [t]) from rfl,
        List.length_set]
  rw [ThreadPool.pushJobs, hfold, List.length_replicate]

theorem getD_replicate_nil {α : Type} :
    ∀ (N i : Nat), (List.replicate N ([] : List α)).getD i [] = [] := by
  intro N
  induction N with
  | zero => intro i; rfl
  | succ n ih =>
    intro i
    cases i with
    | zero => rfl
    | succ m =>
      rw [List.replicate_succ, List.getD_cons_succ]
      exact ih m

/-- C6: `ThreadPool::PushInfiniteTaskBack` selects the unit whose current
task count is minimal, ties resolved by lowest index (the chosen index has
minimal count and every earlier unit has a strictly larger count), and
consequently pushing any sequence of jobs one at a time into a fresh
`N`-unit pool keeps the per-unit task counts within 1 of each other. -/
theorem pushTaskBack_selects_min_and_balances {α : Type} :
    (∀ (pool : List (List α)), pool ≠ [] →
      ThreadPool.minTaskIdx pool < pool.length ∧
      (∀ j, j < pool.length →
        (pool.getD (ThreadPool.minTaskIdx pool) []).length ≤
          (pool.getD j []).length) ∧
      (∀ j, j < ThreadPool.minTaskIdx pool →
        (pool.getD (ThreadPool.minTaskIdx pool) []).length <
          (pool.getD j []).length)) ∧
    (∀ (N : Nat) (jobs : List α) (i j : Nat), i < N → j < N →
      ((ThreadPool.pushJobs N jobs).getD i []).length ≤
        ((ThreadPool.pushJobs N jobs).getD j []).length + 1) := by
  constructor
  · intro pool hne
    exact ⟨minTaskIdx_lt_length pool hne,
      fun j hj => minTaskIdx_min pool j hj,
      fun j hj => minTaskIdx_first pool j hj⟩
  · intro N jobs i j hi hj
    have hlen := pushJobs_length N jobs
    have hlen2 : (jobs.foldl ThreadPool.PushInfiniteTaskBack
        (List.replicate N [])).length = N := hlen
    refine foldl_push_balanced jobs (List.replicate N []) ?_ i j ?_ ?_
    · intro i2 j2 _ _
      rw [getD_replicate_nil, getD_replicate_nil]
      omega
    · omega
    · omega

/-- Witness for C6 at a concrete pool and at 7 jobs pushed into 3 units. -/
theorem pushTaskBack_selects_min_and_balances_witness :
    ThreadPool.minTaskIdx ([[1, 2], [3]] : List (List Nat)) <
      ([[1, 2], [3]] : List (List Nat)).length ∧
    ((ThreadPool.pushJobs 3 (List.range 7)).getD 0 []).length ≤
      ((ThreadPool.pushJobs 3 (List.range 7)).getD 1 []).length + 1 :=
  ⟨(pushTaskBack_selects_min_and_balances.1 [[1, 2], [3]] (by decide)).1,
    pushTaskBack_selects_min_and_balances.2 3 (List.range 7) 0 1 (by decide)
      (by decide)⟩

end Impcool
